import Mathlib

/-!
Verification development for the Magi CLI spell-bundle core: the sigil
(integrity digest) derivation in `magi_cli/loci/spellcraft/sigildry.py`,
the bundle builder and extractor in
`magi_cli/loci/spellcraft/spell_bundle.py`, and the metadata validator and
execution resolver in `magi_cli/loci/spellcraft/spell_parse.py`.

The Python code is embedded shallowly: file contents are lists of byte
values (`List Nat`, each < 256), paths and metadata values are strings,
and the SHA-256 digest of `hashlib` is implemented directly (FIPS 180-4)
so that every definition is executable.  Strings appearing in the bundle
machinery (names, paths, digests, the enum reprs) are ASCII, where the
UTF-8 encoding produced by Python `str.encode()` coincides with the
sequence of code points; `strBytes` uses that encoding.
-/

set_option maxRecDepth 100000

/-- Byte sequence of a string under UTF-8, which on the ASCII strings used
by the bundle machinery is the sequence of code points. -/
def strBytes (s : String) : List Nat :=
  s.data.map Char.toNat

/-- Truncation to a 32-bit word, the implicit modulus of the CPython
integers inside `hashlib` SHA-256 arithmetic. -/
def w32 (n : Nat) : Nat := n % 4294967296

/-- 32-bit right rotation. -/
def rotr32 (k x : Nat) : Nat := w32 ((x >>> k) ||| (x <<< (32 - k)))

/-- SHA-256 Ch function. -/
def shaCh (x y z : Nat) : Nat := (x &&& y) ^^^ ((4294967295 ^^^ x) &&& z)

/-- SHA-256 Maj function. -/
def shaMaj (x y z : Nat) : Nat := (x &&& y) ^^^ (x &&& z) ^^^ (y &&& z)

/-- SHA-256 big sigma 0. -/
def bigSigma0 (x : Nat) : Nat := rotr32 2 x ^^^ rotr32 13 x ^^^ rotr32 22 x

/-- SHA-256 big sigma 1. -/
def bigSigma1 (x : Nat) : Nat := rotr32 6 x ^^^ rotr32 11 x ^^^ rotr32 25 x

/-- SHA-256 small sigma 0. -/
def smallSigma0 (x : Nat) : Nat := rotr32 7 x ^^^ rotr32 18 x ^^^ (x >>> 3)

/-- SHA-256 small sigma 1. -/
def smallSigma1 (x : Nat) : Nat := rotr32 17 x ^^^ rotr32 19 x ^^^ (x >>> 10)

/-- The 64 SHA-256 round constants. -/
def shaK : List Nat :=
  [1116352408, 1899447441, 3049323471, 3921009573, 961987163,
   1508970993, 2453635748, 2870763221, 3624381080, 310598401,
   607225278, 1426881987, 1925078388, 2162078206, 2614888103,
   3248222580, 3835390401, 4022224774, 264347078, 604807628,
   770255983, 1249150122, 1555081692, 1996064986, 2554220882,
   2821834349, 2952996808, 3210313671, 3336571891, 3584528711,
   113926993, 338241895, 666307205, 773529912, 1294757372,
   1396182291, 1695183700, 1986661051, 2177026350, 2456956037,
   2730485921, 2820302411, 3259730800, 3345764771, 3516065817,
   3600352804, 4094571909, 275423344, 430227734, 506948616,
   659060556, 883997877, 958139571, 1322822218, 1537002063,
   1747873779, 1955562222, 2024104815, 2227730452, 2361852424,
   2428436474, 2756734187, 3204031479, 3329325298]

/-- SHA-256 working state: the eight 32-bit chaining words. -/
structure ShaState where
  a : Nat
  b : Nat
  c : Nat
  d : Nat
  e : Nat
  f : Nat
  g : Nat
  h : Nat
deriving Repr, DecidableEq

/-- SHA-256 initial hash value. -/
def shaH0 : ShaState :=
  ⟨1779033703, 3144134277, 1013904242, 2773480762,
   1359893119, 2600822924, 528734635, 1541459225⟩

/-- One SHA-256 compression round for round constant `k` and schedule
word `w`. -/
def shaRound (s : ShaState) (kw : Nat × Nat) : ShaState :=
  let t1 := w32 (s.h + bigSigma1 s.e + shaCh s.e s.f s.g + kw.1 + kw.2)
  let t2 := w32 (bigSigma0 s.a + shaMaj s.a s.b s.c)
  ⟨w32 (t1 + t2), s.a, s.b, s.c, w32 (s.d + t1), s.e, s.f, s.g⟩

/-- Big-endian 32-bit words of a byte list (groups of four). -/
def bytesToWords : List Nat → List Nat
  | a :: b :: c :: d :: rest => (((a * 256 + b) * 256 + c) * 256 + d) :: bytesToWords rest
  | _ => []

/-- Extend the sixteen message words to the 64-entry schedule. -/
def shaExtend : Nat → List Nat → List Nat
  | 0, w => w
  | n + 1, w =>
    let l := w.length
    let x := w32 (smallSigma1 (w.getD (l - 2) 0) + w.getD (l - 7) 0 +
                  smallSigma0 (w.getD (l - 15) 0) + w.getD (l - 16) 0)
    shaExtend n (w ++ [x])

/-- Process one 64-byte block. -/
def shaBlock (s : ShaState) (block : List Nat) : ShaState :=
  let ws := shaExtend 48 (bytesToWords block)
  let t := (shaK.zip ws).foldl shaRound s
  ⟨w32 (s.a + t.a), w32 (s.b + t.b), w32 (s.c + t.c), w32 (s.d + t.d),
   w32 (s.e + t.e), w32 (s.f + t.f), w32 (s.g + t.g), w32 (s.h + t.h)⟩

/-- Split a byte list into 64-byte blocks; the first argument is fuel
bounding the number of blocks, so that the recursion is structural and
computations reduce inside the kernel. -/
def toBlocksF : Nat → List Nat → List (List Nat)
  | 0, _ => []
  | _ + 1, [] => []
  | n + 1, l@(_ :: _) => l.take 64 :: toBlocksF n (l.drop 64)

/-- Split a byte list into 64-byte blocks. -/
def toBlocks (l : List Nat) : List (List Nat) :=
  toBlocksF l.length l

/-- Big-endian eight-byte encoding of the bit length. -/
def lenBytes (bitLen : Nat) : List Nat :=
  [(bitLen >>> 56) % 256, (bitLen >>> 48) % 256, (bitLen >>> 40) % 256,
   (bitLen >>> 32) % 256, (bitLen >>> 24) % 256, (bitLen >>> 16) % 256,
   (bitLen >>> 8) % 256, bitLen % 256]

/-- SHA-256 message padding. -/
def shaPad (msg : List Nat) : List Nat :=
  let n := msg.length
  let zeros := (119 - n % 64) % 64
  msg ++ 0x80 :: List.replicate zeros 0 ++ lenBytes (8 * n)

/-- Big-endian bytes of a 32-bit word. -/
def wordBytes (w : Nat) : List Nat :=
  [w / 16777216 % 256, w / 65536 % 256, w / 256 % 256, w % 256]

/-- The 32-byte SHA-256 digest of a byte list. -/
def sha256bytes (msg : List Nat) : List Nat :=
  let s := (toBlocks (shaPad msg)).foldl shaBlock shaH0
  wordBytes s.a ++ wordBytes s.b ++ wordBytes s.c ++ wordBytes s.d ++
  wordBytes s.e ++ wordBytes s.f ++ wordBytes s.g ++ wordBytes s.h

/-- Lowercase hexadecimal digit. -/
def hexChar (n : Nat) : Char :=
  if n < 10 then Char.ofNat (48 + n) else Char.ofNat (87 + n)

/-- Two lowercase hex characters of a byte. -/
def byteHex (b : Nat) : List Char :=
  [hexChar (b / 16), hexChar (b % 16)]

/-- The lowercase hex digest string, as returned by Python
`hashlib.sha256(...).hexdigest()`. -/
def sha256hex (msg : List Nat) : String :=
  String.mk ((sha256bytes msg).foldr (fun b acc => byteHex b ++ acc) [])

/-!
## Sigildry enums (`sigildry.py` lines 18-24)

`class SpellType(Enum)` in `sigildry.py` has exactly the members `SCRIPT`
and `BUNDLE`; `class ShellType(Enum)` has `PYTHON` and `BASH`.  These are
plain (non-str-mixin) enums, so a Python f-string renders a member as
`SpellType.SCRIPT`, `ShellType.PYTHON`, and so on.
-/

/-- The `SpellType` enum of `sigildry.py` (members `SCRIPT`, `BUNDLE`). -/
inductive SpellType where
  | SCRIPT
  | BUNDLE
deriving Repr, DecidableEq

/-- The `ShellType` enum of `sigildry.py` (members `PYTHON`, `BASH`). -/
inductive ShellType where
  | PYTHON
  | BASH
deriving Repr, DecidableEq

/-- Rendering of a `sigildry.SpellType` member by a Python f-string
(`str` of a plain Enum member). -/
def spellTypeStr : SpellType → String
  | .SCRIPT => "SpellType.SCRIPT"
  | .BUNDLE => "SpellType.BUNDLE"

/-- Rendering of a `sigildry.ShellType` member by a Python f-string. -/
def shellTypeStr : ShellType → String
  | .PYTHON => "ShellType.PYTHON"
  | .BASH => "ShellType.BASH"

/-- Python `str.upper()` restricted to the ASCII strings in play. -/
def pyUpper (s : String) : String :=
  String.mk (s.data.map Char.toUpper)

/-- `getattr(SpellType, spell_type.upper(), SpellType.SCRIPT)` in
`generate_sigil_hash` (`sigildry.py` line 232): the member named by the
uppercased string when it is `SCRIPT` or `BUNDLE`, else the default
`SpellType.SCRIPT`. -/
def toSpellType (s : String) : SpellType :=
  if pyUpper s = "SCRIPT" then .SCRIPT
  else if pyUpper s = "BUNDLE" then .BUNDLE
  else .SCRIPT

/-- `getattr(ShellType, shell_type.upper(), ShellType.PYTHON)`
(`sigildry.py` line 234). -/
def toShellType (s : String) : ShellType :=
  if pyUpper s = "PYTHON" then .PYTHON
  else if pyUpper s = "BASH" then .BASH
  else .PYTHON

/-!
## Files and path helpers

A file of a spell directory or of a zip archive is a pair of its path
relative to the root (with `/` separators, as Python `str(rel_path)`
prints it on POSIX) and its content bytes.
-/

/-- A packaged file: relative path and content bytes. -/
abbrev FileEntry := String × List Nat

/-- The last path component, Python `PurePath.name`. -/
def pathName (p : String) : String :=
  String.mk (p.data.foldl (fun acc c => if c = '/' then [] else acc ++ [c]) [])

/-- Boolean suffix test on character lists. -/
def charListEndsWith (l suf : List Char) : Bool :=
  decide ((l.reverse.take suf.length) = suf.reverse)

/-- Python string comparison (lexicographic by code point), as used by
`sorted()` on paths sharing a common root: with the bundle root a common
string prefix of every full path, comparing full paths and comparing the
paths relative to the root agree. -/
def charListLe : List Char → List Char → Bool
  | [], _ => true
  | _ :: _, [] => false
  | a :: as, b :: bs =>
    if a.toNat < b.toNat then true
    else if b.toNat < a.toNat then false
    else charListLe as bs

/-- Ordering of file entries by relative path, the order in which
`sorted(spell_dir.rglob(..))` visits files. -/
def pathLe (a b : FileEntry) : Prop := charListLe a.1.data b.1.data = true

instance : DecidableRel pathLe := fun a b => by
  unfold pathLe; infer_instance

/-- The skip test of `generate_sigil_hash` (`sigildry.py` line 247):
metadata files (`spell.json`, `spell.yaml`) and generated sigil images
(`*_sigil.svg`) are excluded from the digest. -/
def skipFile (path : String) : Bool :=
  pathName path = "spell.json" || pathName path = "spell.yaml" ||
    charListEndsWith (pathName path).data "_sigil.svg".data

/-!
## `Sigildry.generate_sigil_hash` (`sigildry.py` lines 205-259)

The digest function.  `spell_type` and `shell_type` arrive either as
strings (normalized through the enums above) or, from Python callers that
pass `None` via `metadata.get`, as no value at all — an f-string renders
`None` as the four characters `None` and `isinstance(None, str)` is
false, so no normalization happens on that path.  `Option String` with
`none` for Python `None` captures both.

The file walk `sorted(spell_dir.rglob(..))` visits regular files in
lexicographic order of the full path; as every full path extends the
bundle root by `/` plus the relative path, this is lexicographic order of
the relative paths, modeled with insertion sort by `pathLe`.  Reading a
file in 8192-byte chunks feeds exactly its byte sequence to the
accumulator, so chunking is not modeled separately.
-/

/-- The f-string rendering of the (possibly normalized) `spell_type`
argument inside `generate_sigil_hash`. -/
def spellTypeArgStr : Option String → String
  | some s => spellTypeStr (toSpellType s)
  | none => "None"

/-- The f-string rendering of the (possibly normalized) `shell_type`
argument inside `generate_sigil_hash`. -/
def shellTypeArgStr : Option String → String
  | some s => shellTypeStr (toShellType s)
  | none => "None"

/-- The metadata seed string of `generate_sigil_hash` (`sigildry.py`
line 240): the six descriptor values joined by newlines. -/
def metadataStr (spell_name description : String) (spell_type : Option String)
    (version entry_point : String) (shell_type : Option String) : String :=
  spell_name ++ "\n" ++ description ++ "\n" ++ spellTypeArgStr spell_type ++ "\n" ++
    version ++ "\n" ++ entry_point ++ "\n" ++ shellTypeArgStr shell_type

/-- The ordered list of files fed into the digest: all files sorted by
path, minus the skipped metadata and sigil files (`sigildry.py` lines
244-247). -/
def hashFileList (files : List FileEntry) : List FileEntry :=
  (List.insertionSort pathLe files).filter (fun f => !skipFile f.1)

/-- The byte stream contributed by the files: for each retained file its
relative path string, then its raw bytes (`sigildry.py` lines 250-257). -/
def fileSection (files : List FileEntry) : List Nat :=
  (hashFileList files).foldr (fun f acc => strBytes f.1 ++ f.2 ++ acc) []

/-- `Sigildry.generate_sigil_hash`: SHA-256 over the metadata seed
followed by the file byte stream, as a lowercase hex string. -/
def generate_sigil_hash (spell_name description : String)
    (spell_type : Option String) (version entry_point : String)
    (shell_type : Option String) (files : List FileEntry) : String :=
  sha256hex (strBytes (metadataStr spell_name description spell_type version
    entry_point shell_type) ++ fileSection files)

/-!
## Metadata dictionaries

A parsed `spell.json` / `spell.yaml` dictionary.  Values are modeled as
`Option String`: `some s` is a JSON/YAML string, `none` stands for a
value that is not a string (Python `None`, or a nested dict such as
`dependencies`, which no claim inspects beyond presence).  Key lookup is
first-match; the Python dicts in play never hold duplicate keys.
-/

/-- A metadata dictionary. -/
abbrev Metadata := List (String × Option String)

/-- Key lookup: `none` when the key is absent. -/
def mlookup (m : Metadata) (k : String) : Option (Option String) :=
  match m.find? (fun e => e.1 = k) with
  | some e => some e.2
  | none => none

/-- Python `key in metadata`. -/
def mcontains (m : Metadata) (k : String) : Bool :=
  (mlookup m k).isSome

/-- Python `metadata.get(key)`: `none` for an absent key or a non-string
value. -/
def metaGet (m : Metadata) (k : String) : Option String :=
  match mlookup m k with
  | some v => v
  | none => none

/-- Python `metadata.get(key, default)` fed into an f-string: the string
value when present, the default when the key is absent, and the four
characters `None` when the value is Python `None`. -/
def metaArgStr (m : Metadata) (k dflt : String) : String :=
  match mlookup m k with
  | none => dflt
  | some (some s) => s
  | some none => "None"

/-- Python `metadata.get(key, default)` kept as a possibly-`None` value
(for the `spell_type` / `shell_type` arguments, which are only
normalized when they are strings). -/
def metaArgOpt (m : Metadata) (k dflt : String) : Option String :=
  match mlookup m k with
  | none => some dflt
  | some v => v

/-!
## Spell files and archives

A `.spell` file on disk is either a real ZIP archive or (for legacy
command-list files) raw bytes.  For an archive, `spellJson` is the parsed
content of the top-level `spell.json` entry (`none` when the archive has
no such entry), `nestedMeta` is the parsed content of the nested
`spell/spell.yaml` or `spell/spell.json` entry (`none` when neither
exists), and `entries` lists every other member of the archive as raw
bytes, including the raw bytes of the nested metadata file.
-/

/-- Archive content. -/
structure ZipData where
  spellJson : Option Metadata
  nestedMeta : Option Metadata
  entries : List FileEntry
deriving Repr, DecidableEq

/-- A `.spell` file is an archive or raw (non-ZIP) bytes. -/
inductive FileKind where
  | zipArchive (z : ZipData)
  | rawFile (bytes : List Nat)
deriving Repr, DecidableEq

/-- A spell file path: its stem (`Path(spell_path).stem`), its extension,
and its content. -/
structure SpellFile where
  stem : String
  ext : String
  kind : FileKind
deriving Repr, DecidableEq

/-- Python `zipfile.is_zipfile`. -/
def is_zipfile (f : SpellFile) : Bool :=
  match f.kind with
  | .zipArchive _ => true
  | .rawFile _ => false

/-!
## `Sigildry.verify_sigil` (`sigildry.py` lines 311-401)

The whole body runs inside `try .. except Exception`, which catches
ordinary exceptions (bad zip, missing `spell.json`) and converts them
into a `verified = False` result dictionary.  The `sys.exit(1)` on a
hash mismatch raises `SystemExit`, which does NOT derive from
`Exception`, so it escapes the handler and terminates the process with
status 1 after the mismatch message has been printed.  The outcome of a
call is therefore either a returned dictionary or a process exit.
-/

/-- The result dictionary of `verify_sigil` (the keys each branch sets;
the `metadata` key is omitted as no claim consults it). -/
structure VerifyResult where
  verified : Bool
  error : Option String
  verification_status : Option String
  current_hash : Option String
  stored_hash : Option String
deriving Repr, DecidableEq

/-- Outcome of calling `verify_sigil`: a normal return, or a process
termination with the given status code after printing `printed`. -/
inductive VOutcome where
  | exitProcess (code : Nat) (printed : String)
  | ret (r : VerifyResult)
deriving Repr, DecidableEq

/-- The files `verify_sigil` extracts into its temporary directory:
every archive member except the top-level `spell.json` and the
`{stem}_sigil.svg` image (`sigildry.py` lines 334-336). -/
def extractedFiles (stem : String) (entries : List FileEntry) : List FileEntry :=
  entries.filter (fun e => !(e.1 = "spell.json" || e.1 = stem ++ "_sigil.svg"))

/-- The digest recomputed by `verify_sigil` over the extracted files,
seeding the metadata from the recorded descriptor fields
(`sigildry.py` lines 365-373). -/
def verifyCurrentHash (stem : String) (m : Metadata) (entries : List FileEntry) : String :=
  generate_sigil_hash (metaArgStr m "name" "") (metaArgStr m "description" "")
    (metaArgOpt m "type" "generic") (metaArgStr m "version" "1.0.0")
    (metaArgStr m "entry_point" "") (metaArgOpt m "shell_type" "")
    (extractedFiles stem entries)

/-- The message printed on a hash mismatch (`sigildry.py` line 381). -/
def mismatchMessage (stored current : String) : String :=
  "Sigil hash mismatch! Spell has been tampered with.\nStored: " ++ stored ++
    "\nCurrent: " ++ current

/-- The stored hash, `metadata.get('sigil_hash')`, with Python falsiness:
an absent key, a non-string value, or the empty string all fail the
`if not stored_hash` guard. -/
def storedHashOf (m : Metadata) : Option String :=
  match mlookup m "sigil_hash" with
  | some (some s) => if s = "" then none else some s
  | _ => none

/-- `Sigildry.verify_sigil`. -/
def verify_sigil (f : SpellFile) : VOutcome :=
  match f.kind with
  | .rawFile _ =>
    -- zipfile.ZipFile raises BadZipFile, caught by `except Exception`
    .ret ⟨false, some "File is not a zip file", some "Verification Error", none, none⟩
  | .zipArchive z =>
    match z.spellJson with
    | none =>
      -- zip_ref.open raises KeyError, caught by `except Exception`
      .ret ⟨false, some "There is no item named spell.json in the archive",
            some "Verification Error", none, none⟩
    | some m =>
      if m = [] then
        .ret ⟨false, some "No metadata found", none, none, none⟩
      else
        match storedHashOf m with
        | none => .ret ⟨false, some "No stored hash found", none, none, none⟩
        | some stored =>
          let current := verifyCurrentHash f.stem m z.entries
          if current ≠ stored then
            .exitProcess 1 (mismatchMessage stored current)
          else
            .ret ⟨true, none, some "Verified", some current, some stored⟩

/-!
## `SpellBundle.create_spell_bundle` (`spell_bundle.py` lines 273-357)

The builder normalizes its type arguments through the str-mixin enums of
`spell_bundle.py` (`SpellType`: BUNDLED/SCRIPT/MACRO, `ShellType`:
PYTHON/BASH; the value strings are lowercase), computes the sigil hash
over the source directory via `Sigildry.generate_sigil_hash` BEFORE the
sigil image is written into the directory, then writes the archive:
the source files, the `{name}_sigil.svg` image, and last the
`spell.json` metadata.  When `Sigildry.generate_sigil_hash` receives a
str-mixin enum member, `isinstance(spell_type, str)` is true and
`.upper()` acts on the enum's VALUE string, so the builder effectively
passes the lowercase value string.
-/

/-- Value string of `getattr(spell_bundle.SpellType, s.upper(), SCRIPT)`. -/
def toSpellTypeB (s : String) : String :=
  if pyUpper s = "BUNDLED" then "bundled"
  else if pyUpper s = "SCRIPT" then "script"
  else if pyUpper s = "MACRO" then "macro"
  else "script"

/-- Value string of `getattr(spell_bundle.ShellType, s.upper(), PYTHON)`. -/
def toShellTypeB (s : String) : String :=
  if pyUpper s = "PYTHON" then "python"
  else if pyUpper s = "BASH" then "bash"
  else "python"

/-- The sigil hash `create_spell_bundle` computes and stores
(`spell_bundle.py` lines 322-330): `Sigildry.generate_sigil_hash` over
the source directory, the version fixed at `1.0.0`, the type arguments
being the value strings of the normalized `spell_bundle` enum members
(a str-mixin member IS a `str`, so `sigildry` sees its value string). -/
def builtStoredHash (spell_name description spell_type shell_type entry_point : String)
    (files : List FileEntry) : String :=
  generate_sigil_hash spell_name description (some (toSpellTypeB spell_type)) "1.0.0"
    entry_point (some (toShellTypeB shell_type)) files

/-- The `spell.json` dictionary `create_spell_bundle` serializes
(`spell_bundle.py` lines 288-298 and 339): key insertion order as in the
source, `dependencies` a dict value, `sigil_hash` appended last. -/
def builtMetadata (spell_name spell_type shell_type entry_point description
    created_at : String) (files : List FileEntry) : Metadata :=
  [("name", some spell_name), ("description", some description),
   ("created_at", some created_at), ("entry_point", some entry_point),
   ("shell_type", some (toShellTypeB shell_type)),
   ("type", some (toSpellTypeB spell_type)), ("version", some "1.0.0"),
   ("dependencies", none),
   ("sigil_hash", some (builtStoredHash spell_name description spell_type
      shell_type entry_point files))]

/-- `SpellBundle.create_spell_bundle`: builds the `.spell` archive for a
source directory holding `files`. `created_at` is the build timestamp,
`sigilSvg` the bytes of the generated sigil image (written into the
directory only after the hash has been computed), and `nested` the
parsed nested metadata file among `files` when one exists (it plays no
role in hashing, which excludes `spell.yaml` / `spell.json` by name). -/
def create_spell_bundle (spell_name spell_type shell_type entry_point description
    created_at : String) (files : List FileEntry) (sigilSvg : List Nat)
    (nested : Option Metadata) : SpellFile :=
  ⟨spell_name, ".spell",
   .zipArchive
     ⟨some (builtMetadata spell_name spell_type shell_type entry_point description
        created_at files),
      nested,
      files ++ [(spell_name ++ "_sigil.svg", sigilSvg)]⟩⟩

/-- Replace the content bytes stored under one path. -/
def replaceContent (path : String) (content : List Nat) (l : List FileEntry) :
    List FileEntry :=
  l.map (fun e => if e.1 = path then (e.1, content) else e)

/-- Overwrite the content bytes of one archive member, modeling a
direct in-archive mutation of a packaged file. -/
def tamperEntry (f : SpellFile) (path : String) (content : List Nat) : SpellFile :=
  match f.kind with
  | .zipArchive z =>
    ⟨f.stem, f.ext, .zipArchive ⟨z.spellJson, z.nestedMeta,
      replaceContent path content z.entries⟩⟩
  | k => ⟨f.stem, f.ext, k⟩

/-!
## `SpellBundle.extract_bundle` (`spell_bundle.py` lines 157-171)

Rejects anything that is not a `.spell`-suffixed ZIP archive with
`ValueError("Not a valid spell bundle: ..")`; otherwise extracts every
member and loads the top-level `spell.json` (raising `FileNotFoundError`
when the archive has none).  There is no fallback path for non-archive
input.
-/

/-- `SpellBundle.extract_bundle`: the extracted file set and the loaded
metadata, or the raised error. -/
def extract_bundle (f : SpellFile) : Except String (List FileEntry × Metadata) :=
  if !(f.ext = ".spell") || !is_zipfile f then
    .error "Not a valid spell bundle"
  else
    match f.kind with
    | .zipArchive z =>
      match z.spellJson with
      | some m => .ok (z.entries, m)
      | none => .error "No such file or directory: spell.json"
    | .rawFile _ => .error "Not a valid spell bundle"

/-!
## `SpellParser` validation (`spellcraft/spell_parse.py` lines 16-23, 79-109)
-/

/-- `SpellParser.REQUIRED_FIELDS`. -/
def REQUIRED_FIELDS : List String :=
  ["name", "version", "description", "type", "entry_point"]

/-- `SpellParser.ALLOWED_TYPES`. -/
def ALLOWED_TYPES : List String := ["bundled", "macro", "script"]

/-- `SpellParser.ALLOWED_SHELLS`. -/
def ALLOWED_SHELLS : List String := ["python", "bash", "shell"]

/-- `SpellParser.ALLOWED_EXTENSIONS`. -/
def ALLOWED_EXTENSIONS : List String := [".py", ".sh", ".spell", ".fiat"]

/-- The `ValueError`s `_validate_metadata` can raise.  `missingFields`
carries the list of every absent required field; `entryPointTypeError`
is the `TypeError` from `Path(None)` when `entry_point` holds a
non-string value. -/
inductive ValidationError where
  | missingFields (fields : List String)
  | invalidType (t : Option String)
  | invalidShell (t : Option String)
  | entryPointTypeError
  | invalidEntryPoint (p : String)
deriving Repr, DecidableEq

/-- Comma-space joining, Python `", ".join(missing)`. -/
def commaJoin : List String → String
  | [] => ""
  | [s] => s
  | s :: rest => s ++ ", " ++ commaJoin rest

/-- The text of the batched missing-fields error message
(`spell_parse.py` lines 89-90; the click color escape codes around the
two halves are omitted). -/
def missing_fields_message (fields : List String) : String :=
  "Missing required metadata fields: " ++ commaJoin fields

/-- The `main_script` → `entry_point` legacy alias (`spell_parse.py`
lines 83-84): when only `main_script` is present its value is copied to
a new `entry_point` key. -/
def applyAlias (m : Metadata) : Metadata :=
  if mcontains m "main_script" && !mcontains m "entry_point" then
    m ++ [("entry_point", (mlookup m "main_script").getD none)]
  else m

/-- Python `PurePath(p).suffix`: the extension of the last component,
empty when there is no dot, the dot is leading, or the dot is final. -/
def pathSuffix (p : String) : String :=
  let nm := (pathName p).data
  let idx := (List.range nm.length).foldl
    (fun acc i => if nm.getD i ' ' = '.' then some i else acc) none
  match idx with
  | some i => if 0 < i ∧ i < nm.length - 1 then String.mk (nm.drop i) else ""
  | none => ""

/-- `SpellParser._validate_metadata`: the alias shim, then the batched
missing-field check, then the type, shell and entry-point extension
checks, in source order.  Returns the (alias-extended) metadata the
Python code leaves behind in place. -/
def validate_metadata (m : Metadata) : Except ValidationError Metadata :=
  let m := applyAlias m
  let missing := REQUIRED_FIELDS.filter (fun f => !mcontains m f)
  if !missing.isEmpty then
    .error (.missingFields missing)
  else if !(match metaGet m "type" with
            | some s => ALLOWED_TYPES.contains s
            | none => false) then
    .error (.invalidType (metaGet m "type"))
  else if !(match metaGet m "shell_type" with
            | some s => ALLOWED_SHELLS.contains s
            | none => false) then
    .error (.invalidShell (metaGet m "shell_type"))
  else
    match (mlookup m "entry_point").getD none with
    | none => .error .entryPointTypeError
    | some ep =>
      if ALLOWED_EXTENSIONS.contains (pathSuffix ep) then .ok m
      else .error (.invalidEntryPoint ep)

/-!
## `SpellParser._convert_yaml_to_metadata` and `parse_bundle`
(`spellcraft/spell_parse.py` lines 25-77, 111-137)

`parse_bundle` first creates its workspace with `tempfile.mkdtemp`, then
extracts the archive, loads the nested `spell/spell.yaml` (or
`spell/spell.json`) through `_convert_yaml_to_metadata`, calls
`Sigildry.verify_sigil` on the archive path, and validates.  Any of the
later steps can raise after the workspace exists.
-/

/-- Python `config.get(key, default)` for the converter: the stored
value (possibly `None`) when the key is present, else the default. -/
def cfgGetD (config : Metadata) (k d : String) : Option String :=
  match mlookup config k with
  | none => some d
  | some v => v

/-- `SpellParser._convert_yaml_to_metadata`: the standardized metadata
dictionary.  `parameters` and `dependencies` hold dict values and
`sigil_hash` is set to `None`, all modeled as non-string values. -/
def convert_yaml_to_metadata (config : Metadata) : Metadata :=
  [("name", (mlookup config "name").getD none),
   ("version", cfgGetD config "version" "1.0.0"),
   ("description", cfgGetD config "description" ""),
   ("type", cfgGetD config "type" "bundled"),
   ("shell_type", cfgGetD config "shell_type" "python"),
   ("entry_point", (mlookup config "entry_point").getD none),
   ("parameters", none),
   ("dependencies", none),
   ("created_at", some ""),
   ("sigil_hash", none)]

/-- An exception propagating out of `parse_bundle`. -/
inductive ParseFailure where
  | badZipFile
  | noMetadataFile
  | invalid (e : ValidationError)
deriving Repr, DecidableEq

/-- Result of `parse_bundle`, run after its workspace was created: a
normal return of the metadata, a raised exception, or a process exit
escaping from the inner `verify_sigil` call. -/
inductive ParseResult where
  | exited (code : Nat)
  | failed (e : ParseFailure)
  | ok (m : Metadata)
deriving Repr, DecidableEq

/-- `SpellParser.parse_bundle`, after `tempfile.mkdtemp` has created the
workspace: extract (`BadZipFile` on a non-archive), load and convert the
nested metadata file (`FileNotFoundError` when absent), verify the
sigil (a mismatch exits the process), record the verification summary
under `sigil_verification` (a dict value), validate. -/
def parse_bundle (f : SpellFile) : ParseResult :=
  match f.kind with
  | .rawFile _ => .failed .badZipFile
  | .zipArchive z =>
    match z.nestedMeta with
    | none => .failed .noMetadataFile
    | some config =>
      let metadata := convert_yaml_to_metadata config
      match verify_sigil f with
      | .exitProcess c _ => .exited c
      | .ret _ =>
        let metadata := metadata ++ [("sigil_verification", none)]
        match validate_metadata metadata with
        | .error e => .failed (.invalid e)
        | .ok m => .ok m

/-!
## Entry-point resolution (`spellcraft/spell_parse.py` lines 311-331)
-/

/-- The ordered candidate paths probed for the entry point
(`spell_parse.py` lines 312-316): the conventional `spell/` subdirectory
of the workspace, then the workspace root, then the legacy nested
`spell/spell/` layout. -/
def entry_point_candidates (temp_dir entry : String) : List String :=
  [temp_dir ++ "/spell/" ++ entry,
   temp_dir ++ "/" ++ entry,
   temp_dir ++ "/spell/spell/" ++ entry]

/-- `next((path for path in entry_point_candidates if path.exists()), None)`
(`spell_parse.py` line 326): the first existing candidate.  `fsExists`
is the file-existence predicate of the extracted workspace. -/
def resolve_entry_point (fsExists : String → Bool) (temp_dir entry : String) :
    Option String :=
  (entry_point_candidates temp_dir entry).find? fsExists

/-- Existence of a path inside the workspace `temp_dir` after
`extractall`: some archive member sits at that path. -/
def wsExists (f : SpellFile) (temp_dir : String) (p : String) : Bool :=
  match f.kind with
  | .zipArchive z => z.entries.any (fun e => temp_dir ++ "/" ++ e.1 = p)
  | .rawFile _ => false

/-!
## `SpellParser.execute_spell_file` (`spellcraft/spell_parse.py` lines 241-425)

The model records, besides the outcome, which workspaces the call
created and which it removed.  The `finally` block (lines 421-425) runs
`shutil.rmtree(temp_dir)` only when `'temp_dir' in locals()`: the name
is bound in `execute_spell_file` by the tuple assignment
`temp_dir, metadata = SpellParser.parse_bundle(spell_path)`, which never
executes when `parse_bundle` raises — the workspace `parse_bundle`
created internally is then nobody's to remove.  `verify_sigil` manages
its own temporary directory with a `with tempfile.TemporaryDirectory()`
context and is not tracked.  `runExit` is the exit status of the spawned
interpreter or shell process.
-/

/-- Outcome of `execute_spell_file`: a normal boolean return, or a
process exit propagating from a sigil mismatch. -/
inductive ExecOutcome where
  | exited (code : Nat)
  | returned (success : Bool)
deriving Repr, DecidableEq

/-- Outcome plus the workspaces created and removed by the call. -/
structure ExecTrace where
  outcome : ExecOutcome
  createdWorkspaces : List String
  removedWorkspaces : List String
deriving Repr, DecidableEq

/-- Workspaces a call left behind on disk. -/
def leakedWorkspaces (t : ExecTrace) : List String :=
  t.createdWorkspaces.filter (fun d => !t.removedWorkspaces.contains d)

/-- `SpellParser.execute_spell_file` for the spell stored at a `.tome`
path (`spellExists` = `spell_path.exists()`; `wsName` = the unique name
`tempfile.mkdtemp` picks for the workspace of this execution). -/
def execute_spell_file (f : SpellFile) (wsName : String) (spellExists : Bool)
    (runExit : Nat) : ExecTrace :=
  if !spellExists then ⟨.returned false, [], []⟩
  else
    match verify_sigil f with
    | .exitProcess c _ => ⟨.exited c, [], []⟩
    | .ret _ =>
      match parse_bundle f with
      | .exited c => ⟨.exited c, [wsName], []⟩
      | .failed _ => ⟨.returned false, [wsName], []⟩
      | .ok metadata =>
        let cleanup := [wsName]
        match metaGet metadata "entry_point" with
        | none => ⟨.returned false, cleanup, cleanup⟩
        | some entryName =>
          if entryName = "" then ⟨.returned false, cleanup, cleanup⟩
          else
            match resolve_entry_point (wsExists f wsName) wsName entryName with
            | none => ⟨.returned false, cleanup, cleanup⟩
            | some _ =>
              match metaArgOpt metadata "shell_type" "python" with
              | some "python" =>
                ⟨.returned (runExit = 0), cleanup, cleanup⟩
              | some s =>
                if s = "bash" ∨ s = "shell" then
                  ⟨.returned (runExit = 0), cleanup, cleanup⟩
                else ⟨.returned false, cleanup, cleanup⟩
              | none => ⟨.returned false, cleanup, cleanup⟩

/-!
## Shared order-theoretic facts about the path ordering
-/

theorem charListLe_total : ∀ a b : List Char, charListLe a b = true ∨ charListLe b a = true
  | [], _ => Or.inl rfl
  | _ :: _, [] => Or.inr rfl
  | a :: as, b :: bs => by
    rcases Nat.lt_trichotomy a.toNat b.toNat with h | h | h
    · left; simp [charListLe, h]
    · have h1 : ¬ a.toNat < b.toNat := by omega
      have h2 : ¬ b.toNat < a.toNat := by omega
      rcases charListLe_total as bs with ih | ih
      · left; simp [charListLe, h1, h2, ih]
      · right; simp [charListLe, h1, h2, ih]
    · right; simp [charListLe, h]

theorem charListLe_trans :
    ∀ a b c : List Char, charListLe a b = true → charListLe b c = true →
      charListLe a c = true
  | [], _, _, _, _ => rfl
  | _ :: _, [], _, h, _ => by simp [charListLe] at h
  | _ :: _, _ :: _, [], _, h => by simp [charListLe] at h
  | a :: as, b :: bs, c :: cs, h1, h2 => by
    by_cases hab : a.toNat < b.toNat
    · by_cases hbc : b.toNat < c.toNat
      · have : a.toNat < c.toNat := Nat.lt_trans hab hbc
        simp [charListLe, this]
      · by_cases hcb : c.toNat < b.toNat
        · simp [charListLe, hbc, hcb] at h2
        · have : a.toNat < c.toNat := by omega
          simp [charListLe, this]
    · by_cases hba : b.toNat < a.toNat
      · simp [charListLe, hab, hba] at h1
      · by_cases hbc : b.toNat < c.toNat
        · have : a.toNat < c.toNat := by omega
          simp [charListLe, this]
        · by_cases hcb : c.toNat < b.toNat
          · simp [charListLe, hbc, hcb] at h2
          · have hac : ¬ a.toNat < c.toNat := by omega
            have hca : ¬ c.toNat < a.toNat := by omega
            have h1x : charListLe as bs = true := by
              simpa [charListLe, hab, hba] using h1
            have h2x : charListLe bs cs = true := by
              simpa [charListLe, hbc, hcb] using h2
            simpa [charListLe, hac, hca] using charListLe_trans as bs cs h1x h2x

theorem char_eq_of_toNat_eq {a b : Char} (h : a.toNat = b.toNat) : a = b := by
  apply Char.eq_of_val_eq
  apply UInt32.eq_of_val_eq
  exact Fin.ext (by simpa [Char.toNat, UInt32.toNat] using h)

theorem charListLe_antisymm :
    ∀ a b : List Char, charListLe a b = true → charListLe b a = true → a = b
  | [], [], _, _ => rfl
  | [], _ :: _, _, h => by simp [charListLe] at h
  | _ :: _, [], h, _ => by simp [charListLe] at h
  | a :: as, b :: bs, h1, h2 => by
    by_cases hab : a.toNat < b.toNat
    · simp [charListLe, hab, Nat.lt_asymm hab] at h2
    · by_cases hba : b.toNat < a.toNat
      · simp [charListLe, hab, hba] at h1
      · have hhd : a = b := char_eq_of_toNat_eq (by omega)
        have h1x : charListLe as bs = true := by simpa [charListLe, hab, hba] using h1
        have h2x : charListLe bs as = true := by simpa [charListLe, hab, hba] using h2
        rw [hhd, charListLe_antisymm as bs h1x h2x]

instance : IsTotal FileEntry pathLe :=
  ⟨fun a b => charListLe_total a.1.data b.1.data⟩

instance : IsTrans FileEntry pathLe :=
  ⟨fun a b c => charListLe_trans a.1.data b.1.data c.1.data⟩

/-- Strict version of the path ordering: controls uniqueness of sorted
file lists with pairwise-distinct paths. -/
def pathLt (a b : FileEntry) : Prop := pathLe a b ∧ a.1 ≠ b.1

instance : IsAntisymm FileEntry pathLt :=
  ⟨fun _ _ h1 h2 =>
    absurd (String.ext (charListLe_antisymm _ _ h1.1 h2.1)) h1.2⟩

/-- A SHA-256 hex digest is never the empty string. -/
theorem sha256hex_ne_empty (msg : List Nat) : sha256hex msg ≠ "" := by
  intro h
  have hd := congrArg String.data h
  simp [sha256hex, sha256bytes, wordBytes, byteHex] at hd

/-!
## The claims
-/

/-- C6: for every descriptor missing two or more of the required fields
name, version, description, type, entry_point (after applying the
main_script→entry_point alias), validation raises a single
ValidationError whose message names every missing field, not only the
first one encountered. -/
theorem C6_validation_reports_every_missing_field (m : Metadata)
    (h2 : 2 ≤ (REQUIRED_FIELDS.filter (fun fld => !mcontains (applyAlias m) fld)).length) :
    validate_metadata m =
      .error (.missingFields
        (REQUIRED_FIELDS.filter (fun fld => !mcontains (applyAlias m) fld))) ∧
    (∀ fld, fld ∈ REQUIRED_FIELDS → mcontains (applyAlias m) fld = false →
      fld ∈ REQUIRED_FIELDS.filter (fun fld => !mcontains (applyAlias m) fld)) ∧
    missing_fields_message
        (REQUIRED_FIELDS.filter (fun fld => !mcontains (applyAlias m) fld)) =
      "Missing required metadata fields: " ++
        commaJoin (REQUIRED_FIELDS.filter (fun fld => !mcontains (applyAlias m) fld)) := by
  refine ⟨?_, ?_, rfl⟩
  · have hne : (REQUIRED_FIELDS.filter
        (fun fld => !mcontains (applyAlias m) fld)).isEmpty = false := by
      cases hm : REQUIRED_FIELDS.filter (fun fld => !mcontains (applyAlias m) fld) with
      | nil => rw [hm] at h2; simp at h2
      | cons a l => simp
    unfold validate_metadata
    simp [hne]
  · intro fld hmem hnc
    exact List.mem_filter.mpr ⟨hmem, by simp [hnc]⟩

def c6DemoMetadata : Metadata :=
  [("description", some "d"), ("type", some "script"), ("entry_point", some "x.py")]

theorem C6_witness :
    2 ≤ (REQUIRED_FIELDS.filter
      (fun fld => !mcontains (applyAlias c6DemoMetadata) fld)).length ∧
    validate_metadata c6DemoMetadata = .error (.missingFields ["name", "version"]) ∧
    missing_fields_message ["name", "version"] =
      "Missing required metadata fields: name, version" :=
  ⟨by decide,
   by
    have h := (C6_validation_reports_every_missing_field c6DemoMetadata (by decide)).1
    rw [h]
    exact congrArg (fun l => Except.error (ValidationError.missingFields l)) (by decide),
   by decide⟩

/-- C7: for every workspace in which the entry-point file exists at two
or more candidate locations, the resolver selects the first existing
candidate in the fixed priority order spell/ subdirectory, workspace
root, legacy spell/spell/ layout; later candidates are never chosen
when an earlier one exists. -/
theorem C7_resolution_first_existing_wins (fs : String → Bool) (temp entry : String) :
    (fs (temp ++ "/spell/" ++ entry) = true →
      resolve_entry_point fs temp entry = some (temp ++ "/spell/" ++ entry)) ∧
    (fs (temp ++ "/spell/" ++ entry) = false → fs (temp ++ "/" ++ entry) = true →
      resolve_entry_point fs temp entry = some (temp ++ "/" ++ entry)) ∧
    (fs (temp ++ "/spell/" ++ entry) = false → fs (temp ++ "/" ++ entry) = false →
      fs (temp ++ "/spell/spell/" ++ entry) = true →
      resolve_entry_point fs temp entry = some (temp ++ "/spell/spell/" ++ entry)) := by
  refine ⟨fun h1 => ?_, fun h1 h2 => ?_, fun h1 h2 h3 => ?_⟩ <;>
    simp [resolve_entry_point, entry_point_candidates, List.find?, *]

def c7DemoFs (p : String) : Bool :=
  p = "w/spell/e.py" || p = "w/e.py"

theorem C7_witness :
    c7DemoFs ("w" ++ "/spell/" ++ "e.py") = true ∧
    c7DemoFs ("w" ++ "/" ++ "e.py") = true ∧
    resolve_entry_point c7DemoFs "w" "e.py" = some ("w" ++ "/spell/" ++ "e.py") :=
  ⟨by decide, by decide,
   (C7_resolution_first_existing_wins c7DemoFs "w" "e.py").1 (by decide)⟩

/-- C10: in the digest computation, any spell_type string whose
uppercased form is not a member of the hasher SpellType enum (including
bundled and macro, the enum defining only SCRIPT and BUNDLE) is silently
normalized to SpellType.SCRIPT, and any unrecognized shell_type string
to ShellType.PYTHON, before hashing; consequently descriptors over the
same files differing only in such type strings (bundled, macro, script)
produce equal digests. -/
theorem C10_unrecognized_types_collapse :
    (∀ s : String, pyUpper s ≠ "SCRIPT" → pyUpper s ≠ "BUNDLE" →
      toSpellType s = .SCRIPT) ∧
    (∀ s : String, pyUpper s ≠ "PYTHON" → pyUpper s ≠ "BASH" →
      toShellType s = .PYTHON) ∧
    (∀ (n d v e : String) (sh : Option String) (files : List FileEntry),
      generate_sigil_hash n d (some "bundled") v e sh files =
        generate_sigil_hash n d (some "macro") v e sh files ∧
      generate_sigil_hash n d (some "macro") v e sh files =
        generate_sigil_hash n d (some "script") v e sh files) := by
  refine ⟨fun s h1 h2 => ?_, fun s h1 h2 => ?_, fun n d v e sh files => ?_⟩
  · simp [toSpellType, h1, h2]
  · simp [toShellType, h1, h2]
  · have hb : spellTypeArgStr (some "bundled") = spellTypeArgStr (some "macro") := by
      decide
    have hm : spellTypeArgStr (some "macro") = spellTypeArgStr (some "script") := by
      decide
    exact ⟨by simp [generate_sigil_hash, metadataStr, hb],
           by simp [generate_sigil_hash, metadataStr, hm]⟩

theorem C10_witness :
    pyUpper "bundled" ≠ "SCRIPT" ∧ pyUpper "bundled" ≠ "BUNDLE" ∧
    toSpellType "bundled" = .SCRIPT ∧
    pyUpper "shell" ≠ "PYTHON" ∧ pyUpper "shell" ≠ "BASH" ∧
    toShellType "shell" = .PYTHON :=
  ⟨by decide, by decide,
   C10_unrecognized_types_collapse.1 "bundled" (by decide) (by decide),
   by decide, by decide,
   C10_unrecognized_types_collapse.2.1 "shell" (by decide) (by decide)⟩

/-- C4: the digest computation seeds the hash accumulator with exactly
the six descriptor fields name, description, type, version,
entry_point, shell_type, concatenated in that fixed order separated by
newline characters (the two enum-valued fields contributing their
normalized renderings), before any file content is fed in; the metadata
contribution is a function of exactly these six field values in this
order. -/
theorem C4_metadata_seed_structure (n d : String) (t : Option String)
    (v e : String) (s : Option String) (files : List FileEntry) :
    generate_sigil_hash n d t v e s files =
      sha256hex (strBytes (metadataStr n d t v e s) ++ fileSection files) ∧
    metadataStr n d t v e s =
      n ++ "\n" ++ d ++ "\n" ++ spellTypeArgStr t ++ "\n" ++ v ++ "\n" ++ e ++
        "\n" ++ shellTypeArgStr s ∧
    (∀ (m m2 : Metadata) (stem : String) (entries : List FileEntry),
      (∀ k, k ∈ ["name", "description", "type", "version", "entry_point",
        "shell_type"] → mlookup m k = mlookup m2 k) →
      verifyCurrentHash stem m entries = verifyCurrentHash stem m2 entries) := by
  refine ⟨rfl, rfl, fun m m2 stem entries hk => ?_⟩
  have e1 : metaArgStr m "name" "" = metaArgStr m2 "name" "" := by
    unfold metaArgStr; rw [hk "name" (by simp)]
  have e2 : metaArgStr m "description" "" = metaArgStr m2 "description" "" := by
    unfold metaArgStr; rw [hk "description" (by simp)]
  have e3 : metaArgOpt m "type" "generic" = metaArgOpt m2 "type" "generic" := by
    unfold metaArgOpt; rw [hk "type" (by simp)]
  have e4 : metaArgStr m "version" "1.0.0" = metaArgStr m2 "version" "1.0.0" := by
    unfold metaArgStr; rw [hk "version" (by simp)]
  have e5 : metaArgStr m "entry_point" "" = metaArgStr m2 "entry_point" "" := by
    unfold metaArgStr; rw [hk "entry_point" (by simp)]
  have e6 : metaArgOpt m "shell_type" "" = metaArgOpt m2 "shell_type" "" := by
    unfold metaArgOpt; rw [hk "shell_type" (by simp)]
  unfold verifyCurrentHash
  rw [e1, e2, e3, e4, e5, e6]

theorem C4_witness :
    (∀ k, k ∈ ["name", "description", "type", "version", "entry_point",
      "shell_type"] →
      mlookup [("name", some "x")] k =
        mlookup [("name", some "x"), ("created_at", some "t")] k) ∧
    verifyCurrentHash "s" [("name", some "x")] [] =
      verifyCurrentHash "s" [("name", some "x"), ("created_at", some "t")] [] :=
  ⟨by decide,
   (C4_metadata_seed_structure "" "" none "" "" none []).2.2
     [("name", some "x")] [("name", some "x"), ("created_at", some "t")] "s" []
     (by decide)⟩

/-- C5 counterexample: two different file sets under the same metadata
produce the identical digest, because each file contributes its path
bytes immediately followed by its content bytes with no separator:
one file named a with content bc collides with one file named ab with
content c.  The no-other-file-set-yields-the-stored-digest clause is
therefore false. -/
theorem C5_counterexample_distinct_file_sets_same_digest :
    generate_sigil_hash "n" "" (some "script") "1.0.0" "e.py" (some "python")
        [("a", strBytes "bc")] =
      generate_sigil_hash "n" "" (some "script") "1.0.0" "e.py" (some "python")
        [("ab", strBytes "c")] ∧
    ([("a", strBytes "bc")] : List FileEntry) ≠ [("ab", strBytes "c")] := by
  constructor
  · unfold generate_sigil_hash
    exact congrArg sha256hex (by decide)
  · decide

/-- C5 as amended: the file-content part of the digest covers exactly
the regular files under the bundle root minus the descriptor files
(spell.json, spell.yaml) and generated sigil images, enumerated in
lexicographic order of relative path, each contributing first its
relative path string and then its raw bytes; but because path and
content bytes are concatenated without any separator, a different file
set can reproduce the stored digest, so the uniqueness clause does not
hold. -/
theorem C5_amended_enumeration (files : List FileEntry) :
    (hashFileList files).Perm (files.filter (fun f => !skipFile f.1)) ∧
    (hashFileList files).Pairwise pathLe ∧
    fileSection files =
      (hashFileList files).foldr (fun f acc => strBytes f.1 ++ f.2 ++ acc) [] := by
  unfold hashFileList
  refine ⟨?_, ?_, rfl⟩
  · exact (List.perm_insertionSort pathLe files).filter _
  · exact List.Pairwise.sublist (List.filter_sublist _)
      (List.sorted_insertionSort pathLe files)

def legacyCommandFile : SpellFile :=
  ⟨"legacy", ".spell", .rawFile (strBytes "# Description: greet\necho hello")⟩

/-- C8 counterexample: on an input file that is not a valid archive (a
legacy bare-command list), the extractor FAILS: `extract_bundle` raises
ValueError and `parse_bundle` raises BadZipFile; no fallback produces a
synthesized macro descriptor. -/
theorem C8_counterexample_non_archive_raises :
    extract_bundle legacyCommandFile = .error "Not a valid spell bundle" ∧
    parse_bundle legacyCommandFile = .failed .badZipFile :=
  ⟨rfl, rfl⟩

/-- C8 as amended: for every input file that is not a valid archive
container, the extractor fails: `extract_bundle` raises
ValueError("Not a valid spell bundle") and `parse_bundle` propagates
BadZipFile; there is no fallback treating the file content as a
macro-type artifact with a synthesized descriptor. -/
theorem C8_amended_non_archive_always_fails (f : SpellFile)
    (h : is_zipfile f = false) :
    extract_bundle f = .error "Not a valid spell bundle" ∧
    parse_bundle f = .failed .badZipFile := by
  cases f with
  | mk stem ext kind =>
    cases kind with
    | zipArchive z => simp [is_zipfile] at h
    | rawFile b => exact ⟨by simp [extract_bundle, is_zipfile], rfl⟩

theorem C8_witness :
    is_zipfile legacyCommandFile = false ∧
    extract_bundle legacyCommandFile = .error "Not a valid spell bundle" :=
  ⟨by decide, (C8_amended_non_archive_always_fails legacyCommandFile rfl).1⟩

def noMetadataBundle : SpellFile :=
  ⟨"demo", ".spell", .zipArchive ⟨some [], none, [("spell/run.py", strBytes "x = 1")]⟩⟩

def goodConfig : Metadata := [("name", some "good"), ("entry_point", some "run.py")]

def goodBundle : SpellFile :=
  create_spell_bundle "good" "script" "python" "run.py" "demo spell"
    "2024-01-01T00:00:00"
    [("spell/run.py", strBytes "x = 1"), ("spell/spell.yaml", strBytes "name: good")]
    (strBytes "svg bytes") (some goodConfig)

/-- C9: the cleanup guarantee fails.  On a bundle whose archive lacks
the nested spell/spell.yaml (and spell/spell.json) metadata file,
`parse_bundle` raises AFTER creating the workspace; the caller's
finally block checks whether temp_dir is bound in ITS OWN locals, which
it is not because the tuple assignment never ran, so the workspace is
never removed — while on the successful execution path the same finally
block does remove it. -/
theorem C9_workspace_leaked_on_parse_failure :
    execute_spell_file noMetadataBundle "magi_spell_a" true 0 =
      ⟨.returned false, ["magi_spell_a"], []⟩ ∧
    leakedWorkspaces (execute_spell_file noMetadataBundle "magi_spell_a" true 0) =
      ["magi_spell_a"] ∧
    execute_spell_file goodBundle "magi_spell_b" true 0 =
      ⟨.returned true, ["magi_spell_b"], ["magi_spell_b"]⟩ ∧
    leakedWorkspaces (execute_spell_file goodBundle "magi_spell_b" true 0) = [] := by
  have h1 : execute_spell_file noMetadataBundle "magi_spell_a" true 0 =
      ⟨.returned false, ["magi_spell_a"], []⟩ := rfl
  have h2 : execute_spell_file goodBundle "magi_spell_b" true 0 =
      ⟨.returned true, ["magi_spell_b"], ["magi_spell_b"]⟩ := rfl
  exact ⟨h1, by rw [h1]; decide, h2, by rw [h2]; decide⟩

/-- C1: for every bundle whose stored sigil_hash differs from the digest
recomputed over its extracted contents, verification aborts the current
operation with a nonzero process termination (it never returns normally
and never proceeds to execution), after printing a message naming both
the stored and the recomputed digest. -/
theorem C1_verify_mismatch_is_fatal (stem ext : String) (z : ZipData)
    (m : Metadata) (stored : String)
    (hm : z.spellJson = some m) (hne : m ≠ [])
    (hs : storedHashOf m = some stored)
    (hdiff : verifyCurrentHash stem m z.entries ≠ stored) :
    verify_sigil ⟨stem, ext, .zipArchive z⟩ =
      .exitProcess 1 (mismatchMessage stored (verifyCurrentHash stem m z.entries)) ∧
    (∀ r, verify_sigil ⟨stem, ext, .zipArchive z⟩ ≠ .ret r) ∧
    (∃ p q, mismatchMessage stored (verifyCurrentHash stem m z.entries) =
      p ++ stored ++ q) ∧
    (∃ p, mismatchMessage stored (verifyCurrentHash stem m z.entries) =
      p ++ verifyCurrentHash stem m z.entries) := by
  have h1 : verify_sigil ⟨stem, ext, .zipArchive z⟩ =
      .exitProcess 1 (mismatchMessage stored (verifyCurrentHash stem m z.entries)) := by
    simp only [verify_sigil, hm, hs]
    rw [if_neg hne]
    rw [if_pos hdiff]
  refine ⟨h1, fun r h => ?_, ?_, ?_⟩
  · rw [h1] at h
    exact VOutcome.noConfusion h
  · exact ⟨"Sigil hash mismatch! Spell has been tampered with.\nStored: ",
      "\nCurrent: " ++ verifyCurrentHash stem m z.entries,
      by simp [mismatchMessage, String.append_assoc]⟩
  · exact ⟨"Sigil hash mismatch! Spell has been tampered with.\nStored: " ++ stored ++
      "\nCurrent: ", rfl⟩

def c1DemoMeta : Metadata := [("sigil_hash", some "00")]

theorem C1_witness :
    c1DemoMeta ≠ [] ∧
    storedHashOf c1DemoMeta = some "00" ∧
    verifyCurrentHash "w" c1DemoMeta [] ≠ "00" ∧
    verify_sigil ⟨"w", ".spell", .zipArchive ⟨some c1DemoMeta, none, []⟩⟩ =
      .exitProcess 1 (mismatchMessage "00" (verifyCurrentHash "w" c1DemoMeta [])) :=
  ⟨by decide, by decide, by decide,
   (C1_verify_mismatch_is_fatal "w" ".spell" ⟨some c1DemoMeta, none, []⟩
     c1DemoMeta "00" rfl (by decide) (by decide) (by decide)).1⟩

/-- C3: for every fixed tuple of metadata fields (name, description,
type, version, entry_point, shell_type) and every fixed set of files
under the bundle root, two invocations of the digest function on the
same inputs return the identical hex digest string — in particular the
result is a function of the file SET (with its distinct relative
paths), not of the enumeration order in which it is presented. -/
theorem C3_digest_deterministic (n d : String) (t : Option String)
    (v e : String) (s : Option String) (files1 files2 : List FileEntry)
    (hperm : files1.Perm files2) (hnd : (files1.map Prod.fst).Nodup) :
    generate_sigil_hash n d t v e s files1 = generate_sigil_hash n d t v e s files1 ∧
    generate_sigil_hash n d t v e s files1 = generate_sigil_hash n d t v e s files2 := by
  refine ⟨rfl, ?_⟩
  have hnd2 : (files2.map Prod.fst).Nodup := (hperm.map Prod.fst).nodup hnd
  have hp1 := List.perm_insertionSort pathLe files1
  have hp2 := List.perm_insertionSort pathLe files2
  have hps : (List.insertionSort pathLe files1).Perm (List.insertionSort pathLe files2) :=
    hp1.trans (hperm.trans hp2.symm)
  have base1 : files1.Pairwise (fun a b : FileEntry => a.1 ≠ b.1) :=
    List.pairwise_map.mp hnd
  have base2 : files2.Pairwise (fun a b : FileEntry => a.1 ≠ b.1) :=
    List.pairwise_map.mp hnd2
  have pne1 : (List.insertionSort pathLe files1).Pairwise
      (fun a b : FileEntry => a.1 ≠ b.1) :=
    (hp1.pairwise_iff (fun h => Ne.symm h)).mpr base1
  have pne2 : (List.insertionSort pathLe files2).Pairwise
      (fun a b : FileEntry => a.1 ≠ b.1) :=
    (hp2.pairwise_iff (fun h => Ne.symm h)).mpr base2
  have st1 : (List.insertionSort pathLe files1).Pairwise pathLt :=
    (List.sorted_insertionSort pathLe files1).and pne1
  have st2 : (List.insertionSort pathLe files2).Pairwise pathLt :=
    (List.sorted_insertionSort pathLe files2).and pne2
  have heq : List.insertionSort pathLe files1 = List.insertionSort pathLe files2 :=
    List.eq_of_perm_of_sorted hps st1 st2
  unfold generate_sigil_hash fileSection hashFileList
  rw [heq]

theorem C3_witness :
    ([("b", [2]), ("a", [1])] : List FileEntry).Perm [("a", [1]), ("b", [2])] ∧
    (([("b", [2]), ("a", [1])] : List FileEntry).map Prod.fst).Nodup ∧
    generate_sigil_hash "n" "d" (some "script") "1" "e.py" (some "python")
        [("b", [2]), ("a", [1])] =
      generate_sigil_hash "n" "d" (some "script") "1" "e.py" (some "python")
        [("a", [1]), ("b", [2])] :=
  ⟨by decide, by decide,
   (C3_digest_deterministic "n" "d" (some "script") "1" "e.py" (some "python")
     [("b", [2]), ("a", [1])] [("a", [1]), ("b", [2])] (by decide) (by decide)).2⟩

/-- Does a `verify_sigil` outcome consist of a returned result carrying
`verified = False` together with both hash values, as the spec's
tamper-detection property describes? -/
def returnsVerifiedFalseWithHashes : VOutcome → Bool
  | .ret r => !r.verified && r.stored_hash.isSome && r.current_hash.isSome
  | .exitProcess _ _ => false

/-- The exit status when the outcome is a process termination. -/
def exitCodeOf : VOutcome → Option Nat
  | .exitProcess c _ => some c
  | .ret _ => none

def helloBundle : SpellFile :=
  create_spell_bundle "hello" "script" "python" "hello.py" "says hi"
    "2024-01-01T00:00:00" [("spell/hello.py", strBytes "print(hi)")]
    (strBytes "svg") none

def tamperedHello : SpellFile :=
  tamperEntry helloBundle "spell/hello.py" (strBytes "qrint(hi)")

/-- C2 counterexample: build a bundle, mutate one byte of one packaged
non-metadata file directly in the archive, call verify: the call does
NOT yield a result with verified = false and the two hashes — it
terminates the process with exit status 1 instead. -/
theorem C2_counterexample_verify_never_returns_false :
    returnsVerifiedFalseWithHashes (verify_sigil tamperedHello) = false ∧
    exitCodeOf (verify_sigil tamperedHello) = some 1 := by
  have h : exitCodeOf (verify_sigil tamperedHello) = some 1 := rfl
  exact ⟨by rfl, h⟩

/-- C2 as amended: for every built bundle, after mutating one packaged
non-metadata file directly in the archive so that the recomputed digest
changes, calling verify prints the (now differing) stored and
recomputed hashes and terminates the process with exit status 1; it
does not return a verified = false result. -/
theorem C2_amended_tamper_terminates (spell_name spell_type shell_type entry_point
    description created_at : String) (files : List FileEntry) (svg : List Nat)
    (nested : Option Metadata) (path : String) (c : List Nat)
    (hdiff : verifyCurrentHash spell_name
        (builtMetadata spell_name spell_type shell_type entry_point description
          created_at files)
        (replaceContent path c (files ++ [(spell_name ++ "_sigil.svg", svg)])) ≠
      builtStoredHash spell_name description spell_type shell_type entry_point files) :
    verify_sigil (tamperEntry (create_spell_bundle spell_name spell_type shell_type
        entry_point description created_at files svg nested) path c) =
      .exitProcess 1 (mismatchMessage
        (builtStoredHash spell_name description spell_type shell_type entry_point files)
        (verifyCurrentHash spell_name
          (builtMetadata spell_name spell_type shell_type entry_point description
            created_at files)
          (replaceContent path c (files ++ [(spell_name ++ "_sigil.svg", svg)])))) ∧
    (∀ r, verify_sigil (tamperEntry (create_spell_bundle spell_name spell_type
        shell_type entry_point description created_at files svg nested) path c) ≠
      .ret r) := by
  have hbm : tamperEntry (create_spell_bundle spell_name spell_type shell_type
      entry_point description created_at files svg nested) path c =
      ⟨spell_name, ".spell",
       .zipArchive ⟨some (builtMetadata spell_name spell_type shell_type entry_point
          description created_at files), nested,
        replaceContent path c (files ++ [(spell_name ++ "_sigil.svg", svg)])⟩⟩ := rfl
  have hnee : builtStoredHash spell_name description spell_type shell_type
      entry_point files ≠ "" := by
    unfold builtStoredHash generate_sigil_hash
    exact sha256hex_ne_empty _
  have hlk : mlookup (builtMetadata spell_name spell_type shell_type entry_point
      description created_at files) "sigil_hash" =
      some (some (builtStoredHash spell_name description spell_type shell_type
        entry_point files)) := rfl
  have hsh : storedHashOf (builtMetadata spell_name spell_type shell_type entry_point
      description created_at files) =
      some (builtStoredHash spell_name description spell_type shell_type
        entry_point files) := by
    unfold storedHashOf
    rw [hlk]
    simp [hnee]
  have hne : builtMetadata spell_name spell_type shell_type entry_point description
      created_at files ≠ [] := by
    unfold builtMetadata
    intro h
    exact List.noConfusion h
  have h1 := (C1_verify_mismatch_is_fatal spell_name ".spell"
    ⟨some (builtMetadata spell_name spell_type shell_type entry_point description
       created_at files), nested,
     replaceContent path c (files ++ [(spell_name ++ "_sigil.svg", svg)])⟩
    (builtMetadata spell_name spell_type shell_type entry_point description
      created_at files)
    (builtStoredHash spell_name description spell_type shell_type entry_point files)
    rfl hne hsh hdiff)
  rw [hbm]
  exact ⟨h1.1, h1.2.1⟩

theorem C2_witness :
    verifyCurrentHash "hello"
        (builtMetadata "hello" "script" "python" "hello.py" "says hi"
          "2024-01-01T00:00:00" [("spell/hello.py", strBytes "print(hi)")])
        (replaceContent "spell/hello.py" (strBytes "qrint(hi)")
          ([("spell/hello.py", strBytes "print(hi)")] ++
            [("hello" ++ "_sigil.svg", strBytes "svg")])) ≠
      builtStoredHash "hello" "says hi" "script" "python" "hello.py"
        [("spell/hello.py", strBytes "print(hi)")] ∧
    (∀ r, verify_sigil (tamperEntry (create_spell_bundle "hello" "script" "python"
        "hello.py" "says hi" "2024-01-01T00:00:00"
        [("spell/hello.py", strBytes "print(hi)")] (strBytes "svg") none)
        "spell/hello.py" (strBytes "qrint(hi)")) ≠ .ret r) :=
  ⟨by decide,
   (C2_amended_tamper_terminates "hello" "script" "python" "hello.py" "says hi"
     "2024-01-01T00:00:00" [("spell/hello.py", strBytes "print(hi)")]
     (strBytes "svg") none "spell/hello.py" (strBytes "qrint(hi)")
     (by decide)).2⟩
